import Mathlib

/-!
Verification of the AceUp analytics engine
(`src/Analytics/analytics_server.py`, class `AnalyticsEngine`).

Shallow embedding conventions:
* Instants (`datetime.datetime`) are whole seconds since an arbitrary epoch,
  modelled as `ℤ`.  Every threshold in the engine is a whole number of days,
  so second granularity is faithful for all properties considered here.
* The `due_date` string of an event is modelled by its parse result: `some t` when
  `datetime.fromisoformat` succeeds and yields instant `t`, `none` when it
  raises `ValueError`.  A raised exception propagating out of the engine is
  modelled by an `Option` result being `none`.
* Python floats are modelled by exact rationals `ℚ`; `round(x, n)` is
  round-half-to-even at `n` decimal digits on the exact value, `int(x)` is
  truncation toward zero.  Because the library operations on `ℚ` are
  `@[irreducible]`, the embedding computes with kernel-reducible wrappers
  `qadd`/`qmul`/`qdiv` built on `Rat.divInt`; the lemmas `qadd_eq`,
  `qmul_eq`, `qdiv_eq` below prove they are exactly `+`, `*`, `/` on `ℚ`,
  and the claim theorems are stated with the ordinary operations.
-/

namespace AceUp

/-- Kernel-reducible addition on `ℚ` (proved equal to `+` in `qadd_eq`). -/
def qadd (a b : ℚ) : ℚ := Rat.divInt (a.num * b.den + b.num * a.den) ((a.den : ℤ) * (b.den : ℤ))

/-- Kernel-reducible multiplication on `ℚ` (proved equal to `*` in `qmul_eq`). -/
def qmul (a b : ℚ) : ℚ := Rat.divInt (a.num * b.num) ((a.den : ℤ) * (b.den : ℤ))

/-- Kernel-reducible division on `ℚ` (proved equal to `/` in `qdiv_eq`). -/
def qdiv (a b : ℚ) : ℚ := Rat.divInt (a.num * b.den) ((a.den : ℤ) * b.num)

theorem qadd_eq (a b : ℚ) : qadd a b = a + b := by
  rw [qadd]
  conv_rhs => rw [← Rat.num_divInt_den a, ← Rat.num_divInt_den b]
  rw [Rat.divInt_add_divInt _ _ (by exact_mod_cast a.den_nz) (by exact_mod_cast b.den_nz)]

theorem qmul_eq (a b : ℚ) : qmul a b = a * b := by
  rw [qmul]
  conv_rhs => rw [← Rat.num_divInt_den a, ← Rat.num_divInt_den b]
  rw [Rat.divInt_mul_divInt _ _ (by exact_mod_cast a.den_nz) (by exact_mod_cast b.den_nz)]

theorem qdiv_eq (a b : ℚ) : qdiv a b = a / b := (Rat.div_def' a b).symm

/-- The Python `sum(...)` builtin: left fold of `+` starting at 0. -/
def qsum (l : List ℚ) : ℚ := l.foldl qadd 0

theorem foldl_qadd_eq (l : List ℚ) : ∀ acc : ℚ, l.foldl qadd acc = acc + l.sum := by
  induction l with
  | nil => intro acc; simp
  | cons a t ih =>
      intro acc
      rw [List.foldl_cons, ih, qadd_eq, List.sum_cons, add_assoc]

theorem qsum_eq (l : List ℚ) : qsum l = l.sum := by
  rw [qsum, foldl_qadd_eq, zero_add]

/-- The Python banker rounding `round(q)` to the nearest integer, ties to the
even neighbour, done on the exact value with integer arithmetic: with
`f = ⌊q⌋` and remainder `rem = q.num - f * q.den`, the fractional part
`rem / q.den` is compared against `1/2` by comparing `2 * rem` with `q.den`. -/
def roundHalfEven (q : ℚ) : ℤ :=
  let d : ℤ := (q.den : ℤ)
  let f := Int.fdiv q.num d
  let rem := q.num - f * d
  if 2 * rem < d then f
  else if d < 2 * rem then f + 1
  else if f % 2 = 0 then f else f + 1

/-- The Python `round(q, n)` builtin on the exact value. -/
def pyRound (q : ℚ) (n : ℕ) : ℚ :=
  Rat.divInt (roundHalfEven (Rat.divInt (q.num * 10 ^ n) (q.den : ℤ))) (10 ^ n)

/-- The Python `int(q)` builtin: truncation toward zero. -/
def pyInt (q : ℚ) : ℤ := Int.tdiv q.num (q.den : ℤ)

/-- One event record of `student_data["events"]`.  The engine reads the keys
`due_date`, `weight`, `type`, `status` (plus identity keys kept here for record
identity); the loop in `analyze_highest_weight_event` later writes the keys
`priority_score` and `days_until_due` into the same record, so those are
modelled as optional fields that start out absent. -/
structure EventRec where
  id : String
  title : String
  type : String
  due_date : Option ℤ
  weight : ℚ
  status : String
  priority_score : Option ℚ := none
  days_until_due : Option ℤ := none
deriving DecidableEq

/-- Models `(due_date - current_time).days` (analytics_server.py:181, 296).
A Python `timedelta` is normalized so that `.days` is the difference floored
to whole days (toward negative infinity), hence `Int.fdiv` by 86400 seconds. -/
def days_until_due_of (due current_time : ℤ) : ℤ :=
  Int.fdiv (due - current_time) 86400

/-- The `type_multipliers` dict (analytics_server.py:190-196):
exam 1.2, project 1.1, assignment 1.0, quiz 0.9, homework 0.8. -/
def type_multipliers : List (String × ℚ) :=
  [("exam", mkRat 12 10), ("project", mkRat 11 10), ("assignment", 1),
   ("quiz", mkRat 9 10), ("homework", mkRat 8 10)]

/-- Models `type_multipliers.get(event["type"], 1.0)` (analytics_server.py:197). -/
def typeFactor (t : String) : ℚ := (type_multipliers.lookup t).getD 1

/-- Models `AnalyticsEngine.calculate_priority_score` (analytics_server.py:178-203).
`none` models the `ValueError` raised by `datetime.fromisoformat` on an
unparseable `due_date`. -/
def calculate_priority_score (event : EventRec) (current_time : ℤ) : Option ℚ :=
  match event.due_date with
  | none => none
  | some due =>
      let days_until_due := days_until_due_of due current_time
      let weight_factor : ℚ := qmul event.weight 100
      let urgency_factor : ℚ := ((max 0 (14 - days_until_due) * 5 : ℤ) : ℚ)
      let type_factor := typeFactor event.type
      let status_penalty : ℚ := if event.status = "pending" then 0 else -50
      some (pyRound (qadd (qmul (qadd weight_factor urgency_factor) type_factor) status_penalty) 2)

/-- Models `AnalyticsEngine.get_urgency_level` (analytics_server.py:205-215). -/
def get_urgency_level (days_until_due : ℤ) : String :=
  if days_until_due ≤ 1 then "critical"
  else if days_until_due ≤ 3 then "high"
  else if days_until_due ≤ 7 then "moderate"
  else "low"

/-- Time-based recommendation block (analytics_server.py:222-230). -/
def timeRecs (etype : String) (days_until_due : ℤ) : List String :=
  if days_until_due ≤ 1 then
    ["🚨 URGENT: This " ++ etype ++ " is due within 24 hours!",
     "Focus solely on this task and complete it as soon as possible"]
  else if days_until_due ≤ 3 then
    ["⚠️ Priority: This " ++ etype ++ " is due very soon",
     "Allocate significant time today to work on this"]
  else if days_until_due ≤ 7 then
    ["📅 Plan ahead: Start working on this " ++ etype ++ " soon"]
  else []

/-- Weight-based recommendation block (analytics_server.py:232-238);
the thresholds are the literals 0.3 and 0.15 of the source. -/
def weightRecs (weight : ℚ) : List String :=
  let weight_percentage := pyInt (qmul weight 100)
  if weight ≥ mkRat 3 10 then
    ["💎 High Impact: This task represents " ++ toString weight_percentage ++ "% of your grade",
     "Consider dedicating extra study time given its importance"]
  else if weight ≥ mkRat 15 100 then
    ["📊 Moderate Impact: Worth " ++ toString weight_percentage ++ "% of your final grade"]
  else []

/-- Workload recommendation block (analytics_server.py:240-243). -/
def workloadRecs (total_pending : ℕ) : List String :=
  if total_pending ≥ 8 then
    ["📚 Heavy workload detected - prioritize by due date and weight",
     "Break down large tasks into smaller, manageable chunks"]
  else []

/-- Type-specific recommendation block (analytics_server.py:245-253). -/
def typeRecs (etype : String) : List String :=
  if etype = "exam" then
    ["📖 Create a study schedule leading up to the exam",
     "Review past materials and practice problems"]
  else if etype = "project" then
    ["🛠️ Break this project into phases with mini-deadlines",
     "Start with research and planning phases"]
  else if etype = "assignment" then
    ["✍️ Begin with an outline or initial draft"]
  else []

/-- Models `AnalyticsEngine.generate_recommendations` (analytics_server.py:217-255):
the four blocks append to one list in this order. -/
def generate_recommendations (event : EventRec) (total_pending : ℕ)
    (days_until_due : ℤ) : List String :=
  timeRecs event.type days_until_due ++ weightRecs event.weight
    ++ workloadRecs total_pending ++ typeRecs event.type

/-- Models `[e for e in student_data["events"] if e["status"] == "pending"]`
(analytics_server.py:266). -/
def pendingOf (events : List EventRec) : List EventRec :=
  events.filter (fun e => e.status == "pending")

/-- The selection key `lambda e: e["priority_score"]` (analytics_server.py:299).
On the scored events the field is always present; `getD 0` totalizes the
dict access. -/
def scoreKey (e : EventRec) : ℚ := (e.priority_score).getD 0

/-- The body of the scoring loop (analytics_server.py:293-296): writes
`priority_score` and `days_until_due` into the event record.  Leaves the
record unchanged if the due date does not parse (the real loop raises there;
callers use this only in the all-parseable case). -/
def attachDerived (current_time : ℤ) (e : EventRec) : EventRec :=
  match calculate_priority_score e current_time, e.due_date with
  | some s, some due =>
      { e with priority_score := some s
               days_until_due := some (days_until_due_of due current_time) }
  | _, _ => e

/-- One iteration of the scoring loop as a fallible step: `none` models the
`ValueError` escaping the loop for an unparseable due date. -/
def annotate (current_time : ℤ) (e : EventRec) : Option EventRec :=
  match e.due_date with
  | some _ => some (attachDerived current_time e)
  | none => none

/-- Runs a fallible step over a list, failing the whole traversal on the
first failure — the behaviour of a Python `for` loop whose body may raise. -/
def mapOption (f : α → Option β) : List α → Option (List β)
  | [] => some []
  | a :: l =>
      match f a, mapOption f l with
      | some b, some bs => some (b :: bs)
      | _, _ => none

/-- Models `max(iterable, key=...)` over a non-empty list, seeded with the first
element: the accumulator is replaced only on a strictly larger key, so the
first maximum encountered wins. -/
def pymax (key : α → ℚ) (b : α) (l : List α) : α :=
  l.foldl (fun acc a => if key acc < key a then a else acc) b

/-- Models the Python `max(l, key=key)` call; `none` on the empty list. -/
def maxByKey (key : α → ℚ) : List α → Option α
  | [] => none
  | x :: xs => some (pymax key x xs)

/-- The `analysis` sub-dict of the result (analytics_server.py:274-281, 327-334). -/
structure Analysis where
  total_pending_events : ℕ
  average_weight : ℚ
  days_to_due : ℤ
  urgency_level : String
  impact_score : ℚ
  course_load : String
deriving DecidableEq

/-- The `data` sub-dict of the result. -/
structure AnalysisData where
  event : Option EventRec
  analysis : Analysis
  recommendations : List String
deriving DecidableEq

/-- The full response dict of `analyze_highest_weight_event`. -/
structure AnalysisResult where
  success : Bool
  message : String
  data : AnalysisData
  timestamp : ℤ
  user_id : String
deriving DecidableEq

/-- Models `AnalyticsEngine.analyze_highest_weight_event` (analytics_server.py:257-339).
The Event Store fetch (`AnalyticsData.get_student_data`) and the ambient clock
(`datetime.datetime.now()`) are made explicit parameters `events` and
`current_time`.  A `none` result models an uncaught exception (unparseable
due date) propagating to the caller. -/
def analyze_highest_weight_event (events : List EventRec) (current_time : ℤ)
    (user_id : String) : Option AnalysisResult :=
  let pending_events := pendingOf events
  if pending_events.isEmpty then
    some { success := true
           message := "No pending academic events found. Great job staying on top of your work!"
           data := { event := none
                     analysis := { total_pending_events := 0
                                   average_weight := 0
                                   days_to_due := 0
                                   urgency_level := "low"
                                   impact_score := 0
                                   course_load := "Light" }
                     recommendations :=
                       ["Consider planning ahead for upcoming assignments",
                        "Review your course syllabi for future deadlines",
                        "Use this free time to get ahead on reading or projects"] }
           timestamp := current_time
           user_id := user_id }
  else
    (mapOption (annotate current_time) pending_events).bind (fun scored =>
      (maxByKey scoreKey scored).map (fun highest_priority_event =>
        let total_weight : ℚ := qsum (pending_events.map (fun e => e.weight))
        let average_weight : ℚ := qdiv total_weight (pending_events.length : ℚ)
        let days : ℤ := (highest_priority_event.days_until_due).getD 0
        let urgency_level := get_urgency_level days
        let course_load :=
          if pending_events.length ≥ 8 then "Heavy"
          else if pending_events.length ≥ 5 then "Moderate"
          else "Light"
        let recommendations :=
          generate_recommendations highest_priority_event pending_events.length days
        { success := true
          message := "Successfully identified highest priority pending academic event"
          data := { event := some highest_priority_event
                    analysis := { total_pending_events := pending_events.length
                                  average_weight := pyRound average_weight 3
                                  days_to_due := days
                                  urgency_level := urgency_level
                                  impact_score := scoreKey highest_priority_event
                                  course_load := course_load }
                    recommendations := recommendations }
          timestamp := current_time
          user_id := user_id }))

/-- An event record with the derived keys removed: the static data the record
had when it came out of the Event Store response. -/
def stripDerived (e : EventRec) : EventRec :=
  { e with priority_score := none, days_until_due := none }

/-- Contents of `student_data["events"]` after `analyze_highest_weight_event`
returns successfully: `pending_events` (analytics_server.py:266) is a list of
references to the very dicts of `student_data["events"]`, and the loop at
lines 293-296 writes the two derived keys into each pending one in place;
non-pending records are untouched. -/
def eventsAfter (events : List EventRec) (current_time : ℤ) : List EventRec :=
  events.map (fun e => if e.status == "pending" then attachDerived current_time e else e)

/-- The concrete scenario of the spec: weight 0.30, type exam, status pending,
due exactly two days after the reference instant (taken as 0). -/
def evExam2d : EventRec :=
  { id := "event2", title := "Calculus Midterm Exam", type := "exam",
    due_date := some 172800, weight := mkRat 3 10, status := "pending" }

/-- A low-score companion: homework, weight 0.05, due in 7 days. -/
def evHw7d : EventRec :=
  { id := "event4", title := "Homework Assignment 7", type := "homework",
    due_date := some 604800, weight := mkRat 5 100, status := "pending" }

/-- A pending event whose `due_date` string does not parse. -/
def evBadDue : EventRec :=
  { id := "eventX", title := "Broken", type := "assignment",
    due_date := none, weight := mkRat 1 10, status := "pending" }

/-- A non-pending event. -/
def evDone : EventRec :=
  { id := "eventY", title := "Finished Lab", type := "assignment",
    due_date := some 86400, weight := mkRat 2 10, status := "completed" }

/-- Pending assignment, weight 0.08, due in 1 day. -/
def evAsg1d : EventRec :=
  { id := "event3", title := "Physics Lab Report", type := "assignment",
    due_date := some 86400, weight := mkRat 8 100, status := "pending" }

/-! ### Helper lemmas -/

theorem typeFactor_eq (t : String) :
    typeFactor t =
      if t = "exam" then 1.2 else if t = "project" then 1.1
      else if t = "assignment" then 1 else if t = "quiz" then 0.9
      else if t = "homework" then 0.8 else 1 := by
  have h12 : (mkRat 12 10 : ℚ) = 1.2 := by norm_num [Rat.mkRat_eq_div]
  have h11 : (mkRat 11 10 : ℚ) = 1.1 := by norm_num [Rat.mkRat_eq_div]
  have h9 : (mkRat 9 10 : ℚ) = 0.9 := by norm_num [Rat.mkRat_eq_div]
  have h8 : (mkRat 8 10 : ℚ) = 0.8 := by norm_num [Rat.mkRat_eq_div]
  have f : ∀ s : String, t ≠ s → (t == s) = false := fun s hs => beq_eq_false_iff_ne.mpr hs
  by_cases h1 : t = "exam"
  · simp [typeFactor, type_multipliers, List.lookup, h1, h12]
  by_cases h2 : t = "project"
  · simp [typeFactor, type_multipliers, List.lookup, f _ h1, h2, h11]
  by_cases h3 : t = "assignment"
  · simp [typeFactor, type_multipliers, List.lookup, f _ h1, f _ h2, h3]
  by_cases h4 : t = "quiz"
  · simp [typeFactor, type_multipliers, List.lookup, f _ h1, f _ h2, f _ h3, h4, h9]
  by_cases h5 : t = "homework"
  · simp [typeFactor, type_multipliers, List.lookup, f _ h1, f _ h2, f _ h3, f _ h4, h5, h8]
  · simp [typeFactor, type_multipliers, List.lookup, f _ h1, f _ h2, f _ h3, f _ h4, f _ h5,
      h1, h2, h3, h4, h5]

theorem mapOption_total (f : α → Option β) :
    ∀ {l : List α}, (∀ a ∈ l, (f a).isSome) →
      ∃ l', mapOption f l = some l' ∧ l'.length = l.length := by
  intro l
  induction l with
  | nil => exact fun _ => ⟨[], rfl, rfl⟩
  | cons a t ih =>
      intro h
      obtain ⟨b, hb⟩ := Option.isSome_iff_exists.mp (h a (List.mem_cons_self a t))
      obtain ⟨l', hl', hlen⟩ := ih (fun x hx => h x (List.mem_cons_of_mem a hx))
      refine ⟨b :: l', ?_, by simp [hlen]⟩
      rw [mapOption, hb, hl']

theorem mapOption_none (f : α → Option β) :
    ∀ {l : List α}, (∃ a ∈ l, f a = none) → mapOption f l = none := by
  intro l
  induction l with
  | nil => rintro ⟨a, ha, -⟩; simp at ha
  | cons b t ih =>
      rintro ⟨a, ha, hfa⟩
      rcases List.mem_cons.mp ha with rfl | hat
      · cases hm : mapOption f t <;> rw [mapOption, hfa, hm]
      · cases hfb : f b <;> rw [mapOption, hfb, ih ⟨a, hat, hfa⟩]

theorem mapOption_mem (f : α → Option β) :
    ∀ {l : List α} {l' : List β}, mapOption f l = some l' →
      ∀ b ∈ l', ∃ a ∈ l, f a = some b := by
  intro l
  induction l with
  | nil =>
      intro l' h b hb
      rw [mapOption] at h
      cases h
      simp at hb
  | cons a t ih =>
      intro l' h b hb
      rw [mapOption] at h
      cases hfa : f a with
      | none => rw [hfa] at h; cases hm : mapOption f t <;> rw [hm] at h <;> cases h
      | some bb =>
          rw [hfa] at h
          cases hm : mapOption f t with
          | none => rw [hm] at h; cases h
          | some bs =>
              rw [hm] at h
              cases h
              rcases List.mem_cons.mp hb with rfl | hbs
              · exact ⟨a, List.mem_cons_self a t, hfa⟩
              · obtain ⟨x, hx, hfx⟩ := ih hm b hbs
                exact ⟨x, List.mem_cons_of_mem a hx, hfx⟩

theorem pymax_split {α : Type _} (key : α → ℚ) :
    ∀ (l : List α) (b : α),
      (pymax key b l = b ∧ ∀ a ∈ l, key a ≤ key b) ∨
      (∃ l₁ l₂, l = l₁ ++ pymax key b l :: l₂ ∧ key b < key (pymax key b l) ∧
        (∀ a ∈ l₁, key a < key (pymax key b l)) ∧
        (∀ a ∈ l₂, key a ≤ key (pymax key b l))) := by
  intro l
  induction l with
  | nil => intro b; left; exact ⟨rfl, by simp⟩
  | cons a t ih =>
      intro b
      by_cases hba : key b < key a
      · have hstep : pymax key b (a :: t) = pymax key a t := by
          simp [pymax, List.foldl_cons, hba]
        rcases ih a with ⟨heq, hle⟩ | ⟨l₁, l₂, hsplit, hlt, hl₁, hl₂⟩
        · right
          refine ⟨[], t, by simp [hstep, heq], ?_, by simp, ?_⟩
          · rw [hstep, heq]; exact hba
          · intro x hx; rw [hstep, heq]; exact hle x hx
        · right
          refine ⟨a :: l₁, l₂, ?_, ?_, ?_, ?_⟩
          · rw [hstep]; simpa using congrArg (List.cons a) hsplit
          · rw [hstep]; exact lt_trans hba hlt
          · intro x hx
            rcases List.mem_cons.mp hx with rfl | hxl
            · rw [hstep]; exact hlt
            · rw [hstep]; exact hl₁ x hxl
          · intro x hx; rw [hstep]; exact hl₂ x hx
      · have hstep : pymax key b (a :: t) = pymax key b t := by
          simp [pymax, List.foldl_cons, hba]
        rcases ih b with ⟨heq, hle⟩ | ⟨l₁, l₂, hsplit, hlt, hl₁, hl₂⟩
        · left
          refine ⟨hstep.trans heq, ?_⟩
          intro x hx
          rcases List.mem_cons.mp hx with rfl | hxt
          · exact not_lt.mp hba
          · exact hle x hxt
        · right
          refine ⟨a :: l₁, l₂, ?_, ?_, ?_, ?_⟩
          · rw [hstep]; simpa using congrArg (List.cons a) hsplit
          · rw [hstep]; exact hlt
          · intro x hx
            rcases List.mem_cons.mp hx with rfl | hxl
            · rw [hstep]; exact lt_of_le_of_lt (not_lt.mp hba) hlt
            · rw [hstep]; exact hl₁ x hxl
          · intro x hx; rw [hstep]; exact hl₂ x hx

theorem maxByKey_split {α : Type _} (key : α → ℚ) (l : List α) (m : α)
    (h : maxByKey key l = some m) :
    ∃ l₁ l₂, l = l₁ ++ m :: l₂ ∧ (∀ a ∈ l₁, key a < key m) ∧
      (∀ a ∈ l₂, key a ≤ key m) := by
  cases l with
  | nil => cases h
  | cons x xs =>
      have h' : pymax key x xs = m := by
        have := h
        rw [maxByKey] at this
        exact Option.some.inj this
      subst h'
      rcases pymax_split key xs x with ⟨heq, hle⟩ | ⟨l₁, l₂, hsplit, hlt, hl₁, hl₂⟩
      · exact ⟨[], xs, by simp [heq], by simp, fun a ha => by rw [heq]; exact hle a ha⟩
      · refine ⟨x :: l₁, l₂, ?_, ?_, hl₂⟩
        · simpa using congrArg (List.cons x) hsplit
        · intro a ha
          rcases List.mem_cons.mp ha with rfl | hal
          · exact hlt
          · exact hl₁ a hal

theorem maxByKey_mem {α : Type _} (key : α → ℚ) (l : List α) (m : α)
    (h : maxByKey key l = some m) : m ∈ l := by
  obtain ⟨l₁, l₂, hsplit, -, -⟩ := maxByKey_split key l m h
  rw [hsplit]
  exact List.mem_append_right l₁ (List.mem_cons_self m l₂)

theorem calculate_priority_score_of_due {e : EventRec} {due : ℤ} (now : ℤ)
    (h : e.due_date = some due) :
    calculate_priority_score e now =
      some (pyRound (qadd (qmul (qadd (qmul e.weight 100)
          ((max 0 (14 - days_until_due_of due now) * 5 : ℤ) : ℚ)) (typeFactor e.type))
        (if e.status = "pending" then 0 else -50)) 2) := by
  rw [calculate_priority_score, h]

theorem attachDerived_of_due {e : EventRec} {due : ℤ} (now : ℤ)
    (h : e.due_date = some due) :
    attachDerived now e =
      { e with priority_score := calculate_priority_score e now
               days_until_due := some (days_until_due_of due now) } := by
  rw [attachDerived, calculate_priority_score_of_due now h, h]

theorem annotate_of_due {e : EventRec} {due : ℤ} (now : ℤ) (h : e.due_date = some due) :
    annotate now e = some (attachDerived now e) := by
  rw [annotate, h]

theorem annotate_isSome {e : EventRec} (now : ℤ) (h : (e.due_date).isSome) :
    (annotate now e).isSome := by
  obtain ⟨due, hdue⟩ := Option.isSome_iff_exists.mp h
  rw [annotate_of_due now hdue]
  rfl

theorem annotate_none {e : EventRec} (now : ℤ) (h : e.due_date = none) :
    annotate now e = none := by
  rw [annotate, h]

theorem stripDerived_attachDerived (now : ℤ) (e : EventRec) :
    stripDerived (attachDerived now e) = stripDerived e := by
  rw [attachDerived]
  split <;> rfl

theorem attachDerived_status (now : ℤ) (e : EventRec) :
    (attachDerived now e).status = e.status := by
  rw [attachDerived]
  split <;> rfl

theorem attachDerived_fields {e : EventRec} {due : ℤ} (now : ℤ)
    (h : e.due_date = some due) :
    (attachDerived now e).priority_score = calculate_priority_score e now ∧
    (attachDerived now e).days_until_due = some (days_until_due_of due now) := by
  rw [attachDerived_of_due now h]
  exact ⟨rfl, rfl⟩

theorem annotate_inv {e e' : EventRec} {now : ℤ} (h : annotate now e = some e') :
    ∃ due, e.due_date = some due ∧ e' = attachDerived now e := by
  cases hdue : e.due_date with
  | none => rw [annotate_none now hdue] at h; cases h
  | some due =>
      rw [annotate_of_due now hdue] at h
      exact ⟨due, rfl, (Option.some.inj h).symm⟩

theorem pendingOf_ne_nil_isEmpty {events : List EventRec}
    (h : pendingOf events ≠ []) : (pendingOf events).isEmpty = false := by
  cases hp : pendingOf events with
  | nil => exact absurd hp h
  | cons a l => rfl

theorem mem_pendingOf_status {events : List EventRec} {e : EventRec}
    (h : e ∈ pendingOf events) : e.status = "pending" := by
  have := List.mem_filter.mp h
  simpa using this.2

/-- Inversion of the non-empty branch of `analyze_highest_weight_event`:
once the scored list and the selected maximum are known, the result record
is fully determined. -/
theorem analyze_pos (events : List EventRec) (current_time : ℤ) (user_id : String)
    {scored : List EventRec} {m : EventRec}
    (hne : (pendingOf events).isEmpty = false)
    (hmap : mapOption (annotate current_time) (pendingOf events) = some scored)
    (hmax : maxByKey scoreKey scored = some m) :
    analyze_highest_weight_event events current_time user_id = some
      { success := true
        message := "Successfully identified highest priority pending academic event"
        data := { event := some m
                  analysis := { total_pending_events := (pendingOf events).length
                                average_weight := pyRound (qdiv
                                  (qsum ((pendingOf events).map (fun e => e.weight)))
                                  ((pendingOf events).length : ℚ)) 3
                                days_to_due := (m.days_until_due).getD 0
                                urgency_level := get_urgency_level ((m.days_until_due).getD 0)
                                impact_score := scoreKey m
                                course_load :=
                                  if (pendingOf events).length ≥ 8 then "Heavy"
                                  else if (pendingOf events).length ≥ 5 then "Moderate"
                                  else "Light" }
                  recommendations := generate_recommendations m
                    (pendingOf events).length ((m.days_until_due).getD 0) }
        timestamp := current_time
        user_id := user_id } := by
  rw [analyze_highest_weight_event]
  simp only [hne, hmap, hmax, Option.some_bind, Option.map_some', Bool.false_eq_true,
    if_false]

/-- Inversion for an erroring run: an unparseable pending due date makes the
whole call fail. -/
theorem analyze_map_none (events : List EventRec) (current_time : ℤ) (user_id : String)
    (hmap : mapOption (annotate current_time) (pendingOf events) = none) :
    analyze_highest_weight_event events current_time user_id = none := by
  have hne : (pendingOf events).isEmpty = false := by
    cases hp : pendingOf events with
    | nil => rw [hp] at hmap; cases hmap
    | cons a l => rfl
  rw [analyze_highest_weight_event]
  simp only [hne, hmap, Option.none_bind, Bool.false_eq_true, if_false]

theorem urg_critical_iff (d : ℤ) : get_urgency_level d = "critical" ↔ d ≤ 1 := by
  unfold get_urgency_level
  split_ifs with h1 h2 h3
  · exact iff_of_true rfl h1
  · exact iff_of_false (by decide) (by omega)
  · exact iff_of_false (by decide) (by omega)
  · exact iff_of_false (by decide) (by omega)

theorem urg_high_iff (d : ℤ) : get_urgency_level d = "high" ↔ 1 < d ∧ d ≤ 3 := by
  unfold get_urgency_level
  split_ifs with h1 h2 h3
  · exact iff_of_false (by decide) (by omega)
  · exact iff_of_true rfl (by omega)
  · exact iff_of_false (by decide) (by omega)
  · exact iff_of_false (by decide) (by omega)

theorem urg_moderate_iff (d : ℤ) : get_urgency_level d = "moderate" ↔ 3 < d ∧ d ≤ 7 := by
  unfold get_urgency_level
  split_ifs with h1 h2 h3
  · exact iff_of_false (by decide) (by omega)
  · exact iff_of_false (by decide) (by omega)
  · exact iff_of_true rfl (by omega)
  · exact iff_of_false (by decide) (by omega)

theorem urg_low_iff (d : ℤ) : get_urgency_level d = "low" ↔ 7 < d := by
  unfold get_urgency_level
  split_ifs with h1 h2 h3
  · exact iff_of_false (by decide) (by omega)
  · exact iff_of_false (by decide) (by omega)
  · exact iff_of_false (by decide) (by omega)
  · exact iff_of_true rfl (by omega)

/-! ### Claim theorems -/

/-- C1: for every event with a parseable due date and every reference instant,
`calculate_priority_score` returns
`round((weight*100 + max(0, 14 - days_until_due)*5) * type_factor + status_penalty, 2)`
with the type factors exam 1.2, project 1.1, assignment 1.0, quiz 0.9,
homework 0.8, default 1.0, and status penalty 0 for "pending" and -50
otherwise; in particular a pending exam of weight 0.30 due exactly 2 days
after `now` scores 108.00. -/
theorem calculate_priority_score_formula (e : EventRec) (now : ℤ) :
    calculate_priority_score e now =
      (e.due_date).map (fun due =>
        pyRound ((e.weight * 100 + ((max 0 (14 - days_until_due_of due now) * 5 : ℤ) : ℚ))
            * typeFactor e.type + (if e.status = "pending" then 0 else -50)) 2) ∧
    (∀ t : String, typeFactor t =
      if t = "exam" then 1.2 else if t = "project" then 1.1
      else if t = "assignment" then 1 else if t = "quiz" then 0.9
      else if t = "homework" then 0.8 else 1) ∧
    calculate_priority_score evExam2d 0 = some 108 ∧
    days_until_due_of 172800 0 = 2 := by
  refine ⟨?_, typeFactor_eq, by decide, by decide⟩
  cases hdue : e.due_date with
  | none => rw [calculate_priority_score, hdue]; rfl
  | some due =>
      rw [calculate_priority_score_of_due now hdue, Option.map_some']
      simp only [qadd_eq, qmul_eq]

/-- C3 counterexample: the claim says a due date less than 24 hours in the
past yields `days_until_due = 0` (truncation toward zero); the code floors,
so a due date one hour before `now` yields -1. -/
theorem days_until_due_past_cex :
    days_until_due_of (-3600) 0 = -1 ∧ ¬ days_until_due_of (-3600) 0 = 0 := by
  decide

/-- C3 amended: `days_until_due` is the whole-day difference floored toward
negative infinity for every due date, future or past alike (the unique `d`
with `86400*d ≤ due - now < 86400*(d+1)`); hence a due date less than
24 hours in the past yields -1, not 0. -/
theorem days_until_due_floor (due now : ℤ) :
    86400 * days_until_due_of due now ≤ due - now ∧
    due - now < 86400 * (days_until_due_of due now + 1) ∧
    (now - 86400 < due → due < now → days_until_due_of due now = -1) := by
  have h : days_until_due_of due now = (due - now) / 86400 := by
    rw [days_until_due_of]
    exact Int.fdiv_eq_ediv _ (by omega)
  rw [h]
  refine ⟨by omega, by omega, fun h1 h2 => by omega⟩

theorem days_until_due_floor_witness : days_until_due_of (-7200) 0 = -1 :=
  (days_until_due_floor (-7200) 0).2.2 (by decide) (by decide)

/-- C4: the urgency classifier is total on ℤ with exactly the four labels,
thresholds first-match-wins: `≤ 1` critical (including all negatives),
`≤ 3` high, `≤ 7` moderate, else low, with the stated boundary values. -/
theorem get_urgency_level_spec :
    (∀ d : ℤ, get_urgency_level d = "critical" ∨ get_urgency_level d = "high" ∨
      get_urgency_level d = "moderate" ∨ get_urgency_level d = "low") ∧
    (∀ d : ℤ, get_urgency_level d = "critical" ↔ d ≤ 1) ∧
    (∀ d : ℤ, get_urgency_level d = "high" ↔ 1 < d ∧ d ≤ 3) ∧
    (∀ d : ℤ, get_urgency_level d = "moderate" ↔ 3 < d ∧ d ≤ 7) ∧
    (∀ d : ℤ, get_urgency_level d = "low" ↔ 7 < d) ∧
    get_urgency_level (-5) = "critical" ∧ get_urgency_level 1 = "critical" ∧
    get_urgency_level 2 = "high" ∧ get_urgency_level 3 = "high" ∧
    get_urgency_level 4 = "moderate" ∧ get_urgency_level 7 = "moderate" ∧
    get_urgency_level 8 = "low" := by
  refine ⟨?_, urg_critical_iff, urg_high_iff, urg_moderate_iff, urg_low_iff,
    by decide, by decide, by decide, by decide, by decide, by decide, by decide⟩
  intro d
  unfold get_urgency_level
  split_ifs <;> decide

/-- C5: the recommendation generator emits the four rule groups in the fixed
order time ++ weight ++ workload ++ type with the claimed per-group counts;
for weight 0.35, days 0, type exam and 10 pending events it emits exactly
8 strings. -/
theorem generate_recommendations_spec :
    (∀ (e : EventRec) (tp : ℕ) (d : ℤ),
      generate_recommendations e tp d =
        timeRecs e.type d ++ weightRecs e.weight ++ workloadRecs tp ++ typeRecs e.type ∧
      (timeRecs e.type d).length =
        (if d ≤ 1 then 2 else if d ≤ 3 then 2 else if d ≤ 7 then 1 else 0) ∧
      (weightRecs e.weight).length =
        (if e.weight ≥ 0.3 then 2 else if e.weight ≥ 0.15 then 1 else 0) ∧
      (workloadRecs tp).length = (if tp ≥ 8 then 2 else 0) ∧
      (typeRecs e.type).length =
        (if e.type = "exam" then 2 else if e.type = "project" then 2
         else if e.type = "assignment" then 1 else 0)) ∧
    (generate_recommendations { evExam2d with weight := mkRat 35 100 } 10 0).length = 8 := by
  constructor
  · intro e tp d
    have h3 : (mkRat 3 10 : ℚ) = 0.3 := by norm_num [Rat.mkRat_eq_div]
    have h15 : (mkRat 15 100 : ℚ) = 0.15 := by norm_num [Rat.mkRat_eq_div]
    refine ⟨rfl, ?_, ?_, ?_, ?_⟩
    · simp only [timeRecs]; split_ifs <;> rfl
    · simp only [weightRecs, h3, h15]; split_ifs <;> rfl
    · simp only [workloadRecs]; split_ifs <;> rfl
    · simp only [typeRecs]; split_ifs <;> rfl
  · decide

theorem mapOption_nil_inv (f : α → Option β) {l : List α}
    (h : mapOption f l = some []) : l = [] := by
  cases l with
  | nil => rfl
  | cons a t =>
      rw [mapOption] at h
      cases hfa : f a <;> rw [hfa] at h <;>
        cases hm : mapOption f t <;> rw [hm] at h <;> cases h

theorem exists_scored_max (events : List EventRec) (current_time : ℤ)
    (hne : pendingOf events ≠ [])
    (hp : ∀ e ∈ pendingOf events, (e.due_date).isSome) :
    ∃ scored m, mapOption (annotate current_time) (pendingOf events) = some scored ∧
      maxByKey scoreKey scored = some m := by
  obtain ⟨scored, hmap, hlen⟩ := mapOption_total (annotate current_time)
    (fun e he => annotate_isSome current_time (hp e he))
  cases scored with
  | nil => exact absurd (mapOption_nil_inv _ hmap) hne
  | cons x xs => exact ⟨x :: xs, pymax scoreKey x xs, hmap, rfl⟩

/-- C2: on a non-empty pending set, the returned event is the scored pending
event with maximal `priority_score`, ties broken by input order (the winner is
preceded only by strictly smaller scores and followed only by no-larger ones),
and `total_pending_events` counts the pending events, not all events. -/
theorem analyze_picks_first_max (events : List EventRec) (current_time : ℤ)
    (user_id : String)
    (hne : pendingOf events ≠ [])
    (hp : ∀ e ∈ pendingOf events, (e.due_date).isSome) :
    ∃ r scored winner l₁ l₂,
      analyze_highest_weight_event events current_time user_id = some r ∧
      mapOption (annotate current_time) (pendingOf events) = some scored ∧
      r.data.event = some winner ∧
      scored = l₁ ++ winner :: l₂ ∧
      (∀ a ∈ l₁, scoreKey a < scoreKey winner) ∧
      (∀ a ∈ l₂, scoreKey a ≤ scoreKey winner) ∧
      r.data.analysis.total_pending_events =
        events.countP (fun e => e.status == "pending") := by
  obtain ⟨scored, m, hmap, hmax⟩ := exists_scored_max events current_time hne hp
  obtain ⟨l₁, l₂, hsplit, hl₁, hl₂⟩ := maxByKey_split scoreKey scored m hmax
  refine ⟨_, scored, m, l₁, l₂,
    analyze_pos events current_time user_id (pendingOf_ne_nil_isEmpty hne) hmap hmax,
    hmap, rfl, hsplit, hl₁, hl₂, ?_⟩
  simp [pendingOf, List.countP_eq_length_filter]

theorem analyze_picks_first_max_witness :
    ∃ r scored winner l₁ l₂,
      analyze_highest_weight_event [evExam2d, evHw7d] 0 "student123" = some r ∧
      mapOption (annotate 0) (pendingOf [evExam2d, evHw7d]) = some scored ∧
      r.data.event = some winner ∧
      scored = l₁ ++ winner :: l₂ ∧
      (∀ a ∈ l₁, scoreKey a < scoreKey winner) ∧
      (∀ a ∈ l₂, scoreKey a ≤ scoreKey winner) ∧
      r.data.analysis.total_pending_events =
        List.countP (fun e => e.status == "pending") [evExam2d, evHw7d] :=
  analyze_picks_first_max [evExam2d, evHw7d] 0 "student123" (by decide) (by decide)

/-- C6: with no pending event at all, `analyze_highest_weight_event` returns
a success result (not an error) with a null event, the fixed zeroed analysis
block and exactly three fixed encouragement recommendations. -/
theorem analyze_no_pending (events : List EventRec) (current_time : ℤ)
    (user_id : String) (h : pendingOf events = []) :
    analyze_highest_weight_event events current_time user_id = some
      { success := true
        message := "No pending academic events found. Great job staying on top of your work!"
        data := { event := none
                  analysis := { total_pending_events := 0
                                average_weight := 0
                                days_to_due := 0
                                urgency_level := "low"
                                impact_score := 0
                                course_load := "Light" }
                  recommendations :=
                    ["Consider planning ahead for upcoming assignments",
                     "Review your course syllabi for future deadlines",
                     "Use this free time to get ahead on reading or projects"] }
        timestamp := current_time
        user_id := user_id } := by
  rw [analyze_highest_weight_event]
  simp only [h, List.isEmpty_nil, if_true]

theorem analyze_no_pending_witness :
    analyze_highest_weight_event [evDone] 0 "student123" = some
      { success := true
        message := "No pending academic events found. Great job staying on top of your work!"
        data := { event := none
                  analysis := { total_pending_events := 0
                                average_weight := 0
                                days_to_due := 0
                                urgency_level := "low"
                                impact_score := 0
                                course_load := "Light" }
                  recommendations :=
                    ["Consider planning ahead for upcoming assignments",
                     "Review your course syllabi for future deadlines",
                     "Use this free time to get ahead on reading or projects"] }
        timestamp := 0
        user_id := "student123" } :=
  analyze_no_pending [evDone] 0 "student123" (by decide)

/-- C7: on a non-empty pending set the reported `average_weight` is the mean
of the pending weights rounded to 3 decimals and `course_load` is Heavy for
a pending count ≥ 8, Moderate for ≥ 5, Light otherwise. -/
theorem analyze_average_and_load (events : List EventRec) (current_time : ℤ)
    (user_id : String)
    (hne : pendingOf events ≠ [])
    (hp : ∀ e ∈ pendingOf events, (e.due_date).isSome) :
    ∃ r, analyze_highest_weight_event events current_time user_id = some r ∧
      r.data.analysis.average_weight =
        pyRound (((pendingOf events).map (fun e => e.weight)).sum /
          ((pendingOf events).length : ℚ)) 3 ∧
      r.data.analysis.course_load =
        (if (pendingOf events).length ≥ 8 then "Heavy"
         else if (pendingOf events).length ≥ 5 then "Moderate" else "Light") := by
  obtain ⟨scored, m, hmap, hmax⟩ := exists_scored_max events current_time hne hp
  refine ⟨_,
    analyze_pos events current_time user_id (pendingOf_ne_nil_isEmpty hne) hmap hmax,
    ?_, rfl⟩
  simp only [qsum_eq, qdiv_eq]

theorem analyze_average_and_load_witness :
    ∃ r, analyze_highest_weight_event [evExam2d, evAsg1d, evHw7d] 0 "student123" = some r ∧
      r.data.analysis.average_weight = 0.143 ∧
      r.data.analysis.course_load = "Light" := by
  obtain ⟨r, hr, havg, hload⟩ :=
    analyze_average_and_load [evExam2d, evAsg1d, evHw7d] 0 "student123"
      (by decide) (by decide)
  have h143 : (0.143 : ℚ) = mkRat 143 1000 := by norm_num [Rat.mkRat_eq_div]
  refine ⟨r, hr, ?_, by rw [hload]; decide⟩
  rw [havg, ← qsum_eq, ← qdiv_eq, h143]
  decide

/-- C8: if any pending event has an unparseable due date, the whole analysis
call fails (no `AnalysisResult` at all is produced): the malformed event is
never silently dropped from the ranking. -/
theorem analyze_unparseable_fails (events : List EventRec) (current_time : ℤ)
    (user_id : String) (e : EventRec)
    (he : e ∈ pendingOf events) (hbad : e.due_date = none) :
    analyze_highest_weight_event events current_time user_id = none :=
  analyze_map_none events current_time user_id
    (mapOption_none _ ⟨e, he, annotate_none current_time hbad⟩)

theorem analyze_unparseable_fails_witness :
    analyze_highest_weight_event [evExam2d, evBadDue] 0 "student123" = none :=
  analyze_unparseable_fails [evExam2d, evBadDue] 0 "student123" evBadDue
    (by decide) rfl

/-- C9 counterexample: the records obtained from the Event Store response are
not left unchanged — after one analysis over a single pending event, the
stored record has acquired a `priority_score`, so the claim that derived
fields go only to working copies fails on this input. -/
theorem eventsAfter_mutates_cex :
    eventsAfter [evExam2d] 0 ≠ [evExam2d] ∧
    (eventsAfter [evExam2d] 0).map (fun e => e.priority_score) = [some 108] := by
  decide

/-- C9 amended: the engine writes `priority_score` and `days_until_due` in
place into the pending event records obtained from the store (the filtered
pending list aliases them), not into separate copies; every other field of
every record is unchanged and non-pending records are untouched. -/
theorem eventsAfter_inplace (events : List EventRec) (current_time : ℤ)
    (hp : ∀ e ∈ events, e.status = "pending" → (e.due_date).isSome) :
    (eventsAfter events current_time).map stripDerived = events.map stripDerived ∧
    (∀ e ∈ events, e.status ≠ "pending" → e ∈ eventsAfter events current_time) ∧
    (∀ e ∈ events, e.status = "pending" →
      attachDerived current_time e ∈ eventsAfter events current_time ∧
      (attachDerived current_time e).priority_score =
        calculate_priority_score e current_time ∧
      ∃ due, e.due_date = some due ∧
        (attachDerived current_time e).days_until_due =
          some (days_until_due_of due current_time)) := by
  refine ⟨?_, ?_, ?_⟩
  · rw [eventsAfter, List.map_map]
    apply List.map_congr_left
    intro e _
    by_cases hst : e.status = "pending"
    · have hb : (e.status == "pending") = true := beq_iff_eq.mpr hst
      simp [Function.comp, hb, stripDerived_attachDerived]
    · have hb : (e.status == "pending") = false := beq_eq_false_iff_ne.mpr hst
      simp [Function.comp, hb]
  · intro e he hst
    have hb : (e.status == "pending") = false := beq_eq_false_iff_ne.mpr hst
    rw [eventsAfter]
    exact List.mem_map.mpr ⟨e, he, by simp [hb]⟩
  · intro e he hst
    obtain ⟨due, hdue⟩ := Option.isSome_iff_exists.mp (hp e he hst)
    have hb : (e.status == "pending") = true := beq_iff_eq.mpr hst
    obtain ⟨hps, hdays⟩ := attachDerived_fields current_time hdue
    refine ⟨?_, hps, due, hdue, hdays⟩
    rw [eventsAfter]
    exact List.mem_map.mpr ⟨e, he, by simp [hb]⟩

theorem eventsAfter_inplace_witness :
    ((eventsAfter [evExam2d] 0).map stripDerived = [evExam2d].map stripDerived) ∧
    (∀ e ∈ [evExam2d], e.status ≠ "pending" → e ∈ eventsAfter [evExam2d] 0) ∧
    (∀ e ∈ [evExam2d], e.status = "pending" →
      attachDerived 0 e ∈ eventsAfter [evExam2d] 0 ∧
      (attachDerived 0 e).priority_score = calculate_priority_score e 0 ∧
      ∃ due, e.due_date = some due ∧
        (attachDerived 0 e).days_until_due = some (days_until_due_of due 0)) :=
  eventsAfter_inplace [evExam2d] 0 (by decide)

/-- C10: every success-with-event result is internally consistent: the
returned event is pending, `impact_score` is its attached `priority_score`,
`days_to_due` is its attached `days_until_due`, and `urgency_level` is the
classifier applied to that same day count. -/
theorem analyze_result_consistent (events : List EventRec) (current_time : ℤ)
    (user_id : String) (r : AnalysisResult) (w : EventRec)
    (hr : analyze_highest_weight_event events current_time user_id = some r)
    (hw : r.data.event = some w) :
    w.status = "pending" ∧
    w.priority_score = some r.data.analysis.impact_score ∧
    w.days_until_due = some r.data.analysis.days_to_due ∧
    r.data.analysis.urgency_level = get_urgency_level r.data.analysis.days_to_due := by
  by_cases hne : pendingOf events = []
  · rw [analyze_no_pending events current_time user_id hne] at hr
    cases Option.some.inj hr
    cases hw
  · cases hmap : mapOption (annotate current_time) (pendingOf events) with
    | none =>
        rw [analyze_map_none events current_time user_id hmap] at hr
        cases hr
    | some scored =>
        cases hmax : maxByKey scoreKey scored with
        | none =>
            cases scored with
            | nil => exact absurd (mapOption_nil_inv _ hmap) hne
            | cons x xs => rw [maxByKey] at hmax; cases hmax
        | some m =>
            rw [analyze_pos events current_time user_id
              (pendingOf_ne_nil_isEmpty hne) hmap hmax] at hr
            cases Option.some.inj hr
            have hmw : m = w := Option.some.inj hw
            subst hmw
            have hm_mem := maxByKey_mem scoreKey scored m hmax
            obtain ⟨e, he, hfe⟩ := mapOption_mem _ hmap m hm_mem
            obtain ⟨due, hdue, hmEq⟩ := annotate_inv hfe
            subst hmEq
            obtain ⟨hps, hdays⟩ := attachDerived_fields current_time hdue
            refine ⟨?_, ?_, ?_, rfl⟩
            · rw [attachDerived_status]; exact mem_pendingOf_status he
            · rw [hps, calculate_priority_score_of_due current_time hdue, scoreKey, hps,
                calculate_priority_score_of_due current_time hdue]
              rfl
            · rw [hdays]
              rfl

theorem analyze_result_consistent_witness :
    ∃ r w, analyze_highest_weight_event [evExam2d] 0 "student123" = some r ∧
      r.data.event = some w ∧
      w.status = "pending" ∧
      w.priority_score = some r.data.analysis.impact_score ∧
      w.days_until_due = some r.data.analysis.days_to_due ∧
      r.data.analysis.urgency_level = get_urgency_level r.data.analysis.days_to_due :=
  ⟨_, _, rfl, rfl, analyze_result_consistent [evExam2d] 0 "student123" _ _ rfl rfl⟩

end AceUp
